import Mathlib

/-!
Verification development for the openai-to-claude translation proxy.

The definitions below are a shallow embedding of the Python sources under
`src/`: the token cache (`src/common/token_cache.py`), the token counter
(`src/common/token_counter.py`), the request rewriter
(`src/core/converters/request_converter.py`), the non-streaming response
assembler and the streaming converter
(`src/core/converters/response_converter.py`).  External libraries
(`tiktoken` and Python's `json` module) are treated as parameters: the
tokenizer is an abstract `String → Nat`, the json module an abstract
`JsonLib`.  Python `None`/missing values become `Option`, Python
exceptions become `Except` or explicit crash markers, and the in-memory
dict caches become insertion-ordered association lists.
-/

/-- Python truthiness of an optional string: `None` and `""` are falsy. -/
def pyTruthyOpt (o : Option String) : Bool :=
  match o with
  | some s => !(s == "")
  | none => false

/-- Python `str(x)` applied to an optional string attribute: `str(None)` is
the literal string `"None"` (mirrors `_extract_text_content` in
`src/common/token_counter.py`). -/
def pyStr (o : Option String) : String :=
  match o with
  | some s => s
  | none => "None"

/-- Characters stripped by Python `str.strip()` (ASCII whitespace). -/
def isPySpace (c : Char) : Bool :=
  c == ' ' || c == '\t' || c == '\n' || c == '\r' || c == '\x0b' || c == '\x0c'

/-- Embedding of Python `str.strip()`. -/
def pyStrip (s : String) : String :=
  String.mk (((s.toList.dropWhile isPySpace).reverse.dropWhile isPySpace).reverse)

/-- Substring test on character lists (Python `pat in hay`). -/
def listContainsSub (pat : List Char) : List Char → Bool
  | [] => pat.isEmpty
  | c :: cs => pat.isPrefixOf (c :: cs) || listContainsSub pat cs

/-- Embedding of Python `pat in hay` for strings. -/
def containsSub (hay pat : String) : Bool :=
  listContainsSub pat.toList hay.toList

/-- Fuelled all-occurrences replacement on character lists; with fuel at
least the length of the subject it is Python `str.replace` (left-to-right,
non-overlapping).  Fuel keeps the recursion structural so that concrete
runs reduce definitionally. -/
def listReplaceF : Nat → List Char → List Char → List Char → List Char
  | 0, _, _, l => l
  | _ + 1, _, _, [] => []
  | f + 1, pat, repl, c :: t =>
    if !pat.isEmpty && pat.isPrefixOf (c :: t) then
      repl ++ listReplaceF f pat repl ((c :: t).drop pat.length)
    else
      c :: listReplaceF f pat repl t

/-- Embedding of Python `s.replace(pat, repl)`. -/
def pyReplace (s pat repl : String) : String :=
  String.mk (listReplaceF s.toList.length pat.toList repl.toList s.toList)

/-- Embedding of Python `s.startswith(pat)`. -/
def pyStartsWith (s pat : String) : Bool :=
  pat.toList.isPrefixOf s.toList

/-- Embedding of Python `"".join(parts)`. -/
def pyJoin (parts : List String) : String :=
  parts.foldl (fun a b => a ++ b) ""

/-- Splits a character list at the first occurrence of `pat`, returning the
part before the match and the part after it. -/
def findSplit (pat : List Char) : List Char → Option (List Char × List Char)
  | [] => if pat.isEmpty then some ([], []) else none
  | c :: cs =>
    if pat.isPrefixOf (c :: cs) then some ([], (c :: cs).drop pat.length)
    else
      match findSplit pat cs with
      | some (pre, post) => some (c :: pre, post)
      | none => none

/-- Fuelled embedding of `re.findall(r"<think>(.*?)</think>", s, re.DOTALL)`
specialised to literal open/close tags: returns the contents of each
non-overlapping lazily matched span, scanning left to right. -/
def tagFindAllF (openTag closeTag : List Char) : Nat → List Char → List (List Char)
  | 0, _ => []
  | f + 1, l =>
    match findSplit openTag l with
    | none => []
    | some (_, afterOpen) =>
      match findSplit closeTag afterOpen with
      | none => []
      | some (inner, afterClose) => inner :: tagFindAllF openTag closeTag f afterClose

/-- Fuelled embedding of `re.sub(r"<think>(.*?)</think>", "", s, re.DOTALL)`:
removes each non-overlapping lazily matched span. -/
def tagRemoveF (openTag closeTag : List Char) : Nat → List Char → List Char
  | 0, l => l
  | f + 1, l =>
    match findSplit openTag l with
    | none => l
    | some (pre, afterOpen) =>
      match findSplit closeTag afterOpen with
      | none => l
      | some (_, afterClose) => pre ++ tagRemoveF openTag closeTag f afterClose

/-- All `<think>…</think>` span contents of a string. -/
def thinkFindAll (s : String) : List String :=
  (tagFindAllF "<think>".toList "</think>".toList s.toList.length s.toList).map String.mk

/-- The string with all `<think>…</think>` spans removed. -/
def thinkRemove (s : String) : String :=
  String.mk (tagRemoveF "<think>".toList "</think>".toList s.toList.length s.toList)

/-- Lookup in an insertion-ordered association list (Python `dict.get`). -/
def alGet {K V : Type} [BEq K] (l : List (K × V)) (k : K) : Option V :=
  (l.find? (fun p => p.1 == k)).map (fun p => p.2)

/-- Insert-or-overwrite in an insertion-ordered association list
(Python `dict[k] = v`). -/
def alInsert {K V : Type} [BEq K] (l : List (K × V)) (k : K) (v : V) : List (K × V) :=
  if l.any (fun p => p.1 == k) then
    l.map (fun p => if p.1 == k then (k, v) else p)
  else
    l ++ [(k, v)]

/-- Key removal in an association list. -/
def alErase {K V : Type} [BEq K] (l : List (K × V)) (k : K) : List (K × V) :=
  l.filter (fun p => !(p.1 == k))

/-- Python `dict.pop(k, None)`: the removed value (if any) and the remaining
dictionary. -/
def alPop {K V : Type} [BEq K] (l : List (K × V)) (k : K) : Option V × List (K × V) :=
  (alGet l k, alErase l k)

/-- Abstract interface to Python's `json` module: `parse` is `json.loads`
(returning `none` on `JSONDecodeError`), `dumps` is
`json.dumps(·, ensure_ascii=False)`, `dumpsList` the same on a list value,
`truthy` is Python truthiness of a decoded value, and `emptyObj` is the
decoded empty object. -/
structure JsonLib (J : Type) where
  parse : String → Option J
  dumps : J → String
  dumpsList : List J → String
  truthy : J → Bool
  emptyObj : J

/-- A degenerate `JsonLib` over raw strings, used to instantiate witnesses;
the development's theorems hold for every `JsonLib`. -/
def trivLib : JsonLib String :=
  { parse := fun s => some s
    dumps := fun s => s
    dumpsList := fun l => pyJoin l
    truthy := fun s => !(s == "")
    emptyObj := "" }

/-- Python `json.dumps` of an optional value: `json.dumps(None)` is
`"null"`. -/
def dumpsOpt {J : Type} (lib : JsonLib J) (o : Option J) : String :=
  match o with
  | some j => lib.dumps j
  | none => "null"

/-- The global token cache `_cache` of `src/common/token_cache.py`:
an in-memory mapping from request id to token count. -/
abbrev TokenCache : Type := List (String × Int)

/-- Embedding of `cache_tokens` (`src/common/token_cache.py`): stores the
count only when the request id is truthy and the count is positive. -/
def cache_tokens (requestId : Option String) (tokens : Int) (c : TokenCache) : TokenCache :=
  match requestId with
  | some r => if !(r == "") && decide (0 < tokens) then alInsert c r tokens else c
  | none => c

/-- Embedding of `get_cached_tokens` (`src/common/token_cache.py`):
returns the cached count and the cache after the call; with `del` set it
pops the entry, otherwise it reads without modifying. -/
def get_cached_tokens (requestId : Option String) (del : Bool) (c : TokenCache) :
    Option Int × TokenCache :=
  if !pyTruthyOpt requestId then (none, c)
  else if del then alPop c (requestId.getD "")
  else (alGet c (requestId.getD ""), c)

/-- Embedding of `AnthropicSystemMessage` (`src/models/anthropic.py`):
a system fragment with a `type` tag (normally `"text"`) and its text. -/
structure SystemMsg where
  stype : String := "text"
  text : String := ""
  deriving DecidableEq, Repr

/-- The `system` field of an Anthropic request: a plain string or a list of
`SystemMsg` fragments. -/
inductive SystemField where
  | str (s : String)
  | list (items : List SystemMsg)
  deriving DecidableEq, Repr

/-- Embedding of `AnthropicMessageContent` (`src/models/anthropic.py`).
`btype` is the `type` discriminator; all other fields are optional exactly
as in the pydantic model.  `rcontent` is the `tool_result` `content`
field, a string or a list of json values. -/
structure ABlock (J : Type) where
  btype : String
  text : Option String := none
  source : Option J := none
  id : Option String := none
  name : Option String := none
  input : Option J := none
  toolUseId : Option String := none
  rcontent : Option (String ⊕ List J) := none
  deriving DecidableEq, Repr

/-- The `content` of an Anthropic message: a string or a block list. -/
inductive MContent (J : Type) where
  | str (s : String)
  | blocks (bs : List (ABlock J))
  deriving DecidableEq, Repr

/-- Embedding of `AnthropicMessage` (`src/models/anthropic.py`). -/
structure AMessage (J : Type) where
  role : String
  content : MContent J
  deriving DecidableEq, Repr

/-- Embedding of `AnthropicToolDefinition` (`src/models/anthropic.py`). -/
structure ToolDef (J : Type) where
  name : String
  description : Option String := none
  inputSchema : Option J := none
  deriving DecidableEq, Repr

/-- The `thinking` field of an Anthropic request
(`bool | dict[str, Any] | None` in `src/models/anthropic.py`); for the
object form only the `"type"` key is ever read, so values are kept as
strings. -/
inductive ThinkingField where
  | boolVal (b : Bool)
  | objVal (kvs : List (String × String))
  deriving DecidableEq, Repr

/-- Embedding of `AnthropicRequest` (`src/models/anthropic.py`), restricted
to the fields the converters under verification read.  Bounded sampling
parameters are modelled as rationals. -/
structure AnthropicRequest (J : Type) where
  model : String
  messages : List (AMessage J)
  maxTokens : Int
  system : Option SystemField := none
  tools : Option (List (ToolDef J)) := none
  temperature : Option ℚ := none
  topP : Option ℚ := none
  topK : Option Int := none
  thinking : Option ThinkingField := none
  deriving DecidableEq, Repr

/-- Modelled from the spec: the five model-routing slots
`models.default/small/think/tool/longContext` of the operator
configuration (its pydantic model lives in `src/config/settings.py`, which
is absent from `src/`; the field set follows spec section 6 and the reads
in `get_target_model`). -/
structure ModelsConfig where
  defaultModel : Option String := none
  small : Option String := none
  think : Option String := none
  tool : Option String := none
  longContext : Option String := none
  deriving DecidableEq, Repr

/-- Modelled from the spec: the slice of the operator configuration that
`get_target_model` consumes. -/
structure AppConfig where
  models : ModelsConfig := {}
  deriving DecidableEq, Repr

/-- Embedding of `TokenCounter._process_content_part`
(`src/common/token_counter.py`): the textual surfaces contributed by one
content block of a list-valued message. -/
def process_content_part {J : Type} (lib : JsonLib J) (b : ABlock J) : List String :=
  if b.btype == "text" then
    if !(pyStr b.text == "") then [pyStr b.text] else []
  else if b.btype == "tool_use" then
    match b.input with
    | some j => if lib.truthy j then [lib.dumps j] else []
    | none => []
  else []

/-- Textual surfaces of one Anthropic message (`count_tokens` message
loop). -/
def messageTexts {J : Type} (lib : JsonLib J) (m : AMessage J) : List String :=
  match m.content with
  | MContent.str s => [s]
  | MContent.blocks bs => bs.flatMap (process_content_part lib)

/-- Textual surfaces of the `system` field (`count_tokens` system
branch); the Python `if system:` truthiness check skips `""` and `[]`. -/
def systemTexts (sys : Option SystemField) : List String :=
  match sys with
  | none => []
  | some (SystemField.str s) => if s == "" then [] else [s]
  | some (SystemField.list items) =>
    if items.isEmpty then []
    else
      items.flatMap (fun it =>
        if it.stype == "text" then
          if !(pyStr (some it.text) == "") then [pyStr (some it.text)] else []
        else [])

/-- Textual surfaces of the tool definitions (`count_tokens` tools branch).
Note that a missing description contributes the literal `"None"`, because
the source renders it with `str(...)`. -/
def toolTexts {J : Type} (lib : JsonLib J) (tools : Option (List (ToolDef J))) : List String :=
  match tools with
  | none => []
  | some ts =>
    if ts.isEmpty then []
    else
      ts.flatMap (fun t =>
        (if !(pyStr (some t.name) == "") then [pyStr (some t.name)] else []) ++
        (if !(pyStr t.description == "") then [pyStr t.description] else []) ++
        (match t.inputSchema with
         | some j => if lib.truthy j then [lib.dumps j] else []
         | none => []))

/-- Embedding of `TokenCounter.count_tokens` (`src/common/token_counter.py`)
with the BPE encoder abstracted as `enc` (length of the `o200k_base`
encoding of a string). -/
def count_tokens {J : Type} (lib : JsonLib J) (enc : String → Nat)
    (messages : List (AMessage J)) (sys : Option SystemField)
    (tools : Option (List (ToolDef J))) : Nat :=
  enc (pyJoin (messages.flatMap (messageTexts lib) ++ systemTexts sys ++ toolTexts lib tools))

/-- Embedding of `AnthropicContentBlock` (`src/models/anthropic.py`), the
response-side content block. -/
structure ACBlock (J : Type) where
  btype : String
  text : Option String := none
  id : Option String := none
  name : Option String := none
  input : Option J := none
  thinking : Option String := none
  signature : Option String := none
  deriving DecidableEq, Repr

/-- Embedding of `TokenCounter.count_response_tokens`
(`src/common/token_counter.py`). -/
def count_response_tokens {J : Type} (lib : JsonLib J) (enc : String → Nat)
    (blocks : List (ACBlock J)) : Nat :=
  enc (pyJoin (blocks.flatMap (fun b =>
    (if pyTruthyOpt b.text then [b.text.getD ""] else []) ++
    (if pyTruthyOpt b.thinking then [b.thinking.getD ""] else []) ++
    (match b.input with
     | some j => if lib.truthy j then [lib.dumps j] else []
     | none => []) ++
    (if pyTruthyOpt b.name then [b.name.getD ""] else []))))

/-- Embedding of `AnthropicToOpenAIConverter.get_target_model`
(`src/core/converters/request_converter.py`).  The result is `Except`
because the `thinking["type"]` subscript raises `TypeError` on the boolean
form of `thinking` and `KeyError` when the object lacks a `"type"` key. -/
def get_target_model {J : Type} (lib : JsonLib J) (enc : String → Nat)
    (config : AppConfig) (req : AnthropicRequest J) : Except String (Option String) :=
  if !(req.model == "") && containsSub req.model "," then
    Except.ok (some req.model)
  else if !pyTruthyOpt config.models.defaultModel then
    Except.ok (some req.model)
  else
    let resolved :=
      if containsSub req.model "haiku" then config.models.small
      else if containsSub req.model "sonnet" then config.models.defaultModel
      else config.models.defaultModel
    let step : Except String (Option String) :=
      match req.thinking with
      | none => Except.ok resolved
      | some (ThinkingField.boolVal _) =>
        Except.error "TypeError: argument of type bool is not subscriptable"
      | some (ThinkingField.objVal kvs) =>
        match alGet kvs "type" with
        | none => Except.error "KeyError: type"
        | some v => Except.ok (if v == "enabled" then config.models.think else resolved)
    match step with
    | Except.error e => Except.error e
    | Except.ok resolved2 =>
      let totalTokens := count_tokens lib enc req.messages req.system req.tools
      if 1000 * 100 < totalTokens then Except.ok config.models.longContext
      else Except.ok resolved2

/-- A converted tool call on an OpenAI message, as built by
`_convert_single_message`: the dict
`{"id": …, "type": "function", "function": {"name": …, "arguments": …}}`.
`id` and `fname` are optional because the source pydantic block fields may
be `None`. -/
structure OToolCallC where
  id : Option String := none
  fname : Option String := none
  farguments : String := ""
  deriving DecidableEq, Repr

/-- The `content` of a converted OpenAI message: a plain string or the
retained list of content parts (text / image_url block dumps). -/
inductive OContent (J : Type) where
  | str (s : String)
  | parts (ps : List (ABlock J))
  deriving DecidableEq, Repr

/-- Embedding of `OpenAIMessage` (`src/models/openai.py`) as produced by the
request converter. -/
structure OMsg (J : Type) where
  role : String
  content : Option (OContent J) := none
  toolCalls : List OToolCallC := []
  toolCallId : Option String := none
  deriving DecidableEq, Repr

/-- Embedding of `AnthropicToOpenAIConverter._convert_system_message`
(`src/core/converters/request_converter.py`). -/
def convert_system_message {J : Type} (sys : SystemField) : List (OMsg J) :=
  match sys with
  | SystemField.str s => [{ role := "system", content := some (OContent.str s) }]
  | SystemField.list items =>
    items.map (fun it => { role := "system", content := some (OContent.str it.text) })

/-- The walk over a list-valued message's blocks in
`_convert_single_message`: partitions blocks into retained content parts,
tool calls and tool results (the latter as `tool_call_id × content`
pairs).  Only `"text"` and `"image_url"` typed blocks are retained;
`"image"` and `"thinking"` blocks are silently dropped. -/
def partitionBlocks {J : Type} (lib : JsonLib J) (bs : List (ABlock J)) :
    List (ABlock J) × List OToolCallC × List (Option String × Option String) :=
  bs.foldl
    (fun acc b =>
      let (parts, calls, results) := acc
      if b.btype == "tool_use" then
        (parts, calls ++ [{ id := b.id, fname := b.name, farguments := dumpsOpt lib b.input }],
         results)
      else if b.btype == "tool_result" then
        let rc : Option String :=
          match b.rcontent with
          | none => none
          | some (Sum.inl s) => some s
          | some (Sum.inr l) => some (lib.dumpsList l)
        (parts, calls, results ++ [(b.toolUseId, rc)])
      else if b.btype == "text" || b.btype == "image_url" then
        (parts ++ [b], calls, results)
      else
        (parts, calls, results))
    ([], [], [])

/-- The main-message `content` shaping of `_convert_single_message`: a
single text part collapses to its string, several parts stay a list, no
parts means no content. -/
def buildMainContent {J : Type} (parts : List (ABlock J)) : Option (OContent J) :=
  match parts with
  | [] => none
  | [b] =>
    if b.btype == "text" then
      match b.text with
      | some t => some (OContent.str t)
      | none => none
    else some (OContent.parts [b])
  | ps => some (OContent.parts ps)

/-- Embedding of `AnthropicToOpenAIConverter._convert_single_message`
(`src/core/converters/request_converter.py`); the `ValueError` on falsy
content becomes an `Except.error`.  The result is the emitted message
list (one main message plus one `tool` message per `tool_result`
block). -/
def convert_single_message {J : Type} (lib : JsonLib J) (m : AMessage J) :
    Except String (List (OMsg J)) :=
  match m.content with
  | MContent.str s =>
    if s == "" then Except.error "Anthropic消息内容不能为空"
    else Except.ok [{ role := m.role, content := some (OContent.str s) }]
  | MContent.blocks bs =>
    if bs.isEmpty then Except.error "Anthropic消息内容不能为空"
    else
      let (parts, calls, results) := partitionBlocks lib bs
      let mainMsgs : List (OMsg J) :=
        if !results.isEmpty then
          if !parts.isEmpty || !calls.isEmpty then
            [{ role := m.role, content := buildMainContent parts, toolCalls := calls }]
          else []
        else
          [{ role := m.role, content := buildMainContent parts, toolCalls := calls }]
      let toolMsgs : List (OMsg J) :=
        results.map (fun tr =>
          { role := "tool",
            content := match tr.2 with
                       | some s => some (OContent.str s)
                       | none => none,
            toolCallId := tr.1 })
      Except.ok (mainMsgs ++ toolMsgs)

/-- Whether a converted message is an assistant message carrying non-empty
`tool_calls` (the span-opening test of `_filter_incomplete_tool_calls`). -/
def isAsstTC {J : Type} (m : OMsg J) : Bool :=
  m.role == "assistant" && !m.toolCalls.isEmpty

/-- The truthy declared tool-call ids of a message
(`{call.get("id") for call in tool_calls if call.get("id")}`). -/
def declaredIds (calls : List OToolCallC) : List String :=
  calls.filterMap (fun c =>
    match c.id with
    | some s => if s == "" then none else some s
    | none => none)

/-- Whether the contiguous `tool` messages of a span cover every declared
id (`found_tool_ids == tool_call_ids`; the found set can only contain
declared ids, so set equality is exactly this coverage test). -/
def coversIds {J : Type} (ids : List String) (span : List (OMsg J)) : Bool :=
  ids.all (fun d => span.any (fun t => t.toolCallId == some d))

/-- The backward scan of `_filter_incomplete_tool_calls` for a bare `tool`
message: walks the already-visited original messages (nearest first) over
`tool` messages and tool-call-bearing assistants, succeeding on an
assistant that declares the id and stopping at any other message. -/
def hasDeclAsst {J : Type} : List (OMsg J) → Option String → Bool
  | [], _ => false
  | p :: ps, tid =>
    if isAsstTC p then
      p.toolCalls.any (fun c => c.id == tid) || hasDeclAsst ps tid
    else if p.role == "tool" then hasDeclAsst ps tid
    else false

/-- Fuelled embedding of the `while i < len(messages)` loop of
`_filter_incomplete_tool_calls` (`src/core/converters/request_converter.py`).
`prev` is the reversed list of already-visited original messages (the
backward scan inspects the original list, dropped messages included); the
fuel is at least the length of the remaining list, which the loop consumes
by at least one message per iteration. -/
def filterGo {J : Type} : Nat → List (OMsg J) → List (OMsg J) → List (OMsg J)
  | 0, _, _ => []
  | _ + 1, _, [] => []
  | fuel + 1, prev, m :: rest =>
    if isAsstTC m then
      let span := rest.takeWhile (fun x => x.role == "tool")
      let rest2 := rest.dropWhile (fun x => x.role == "tool")
      let prev2 := span.reverse ++ m :: prev
      if coversIds (declaredIds m.toolCalls) span then
        m :: (span ++ filterGo fuel prev2 rest2)
      else
        filterGo fuel prev2 rest2
    else if m.role == "tool" then
      if hasDeclAsst prev m.toolCallId then m :: filterGo fuel (m :: prev) rest
      else filterGo fuel (m :: prev) rest
    else
      m :: filterGo fuel (m :: prev) rest

/-- Embedding of `AnthropicToOpenAIConverter._filter_incomplete_tool_calls`
(`src/core/converters/request_converter.py`). -/
def filter_incomplete_tool_calls {J : Type} (msgs : List (OMsg J)) : List (OMsg J) :=
  filterGo msgs.length [] msgs

/-- One step of the message loop in
`AnthropicToOpenAIConverter._convert_messages`: extend the accumulated
list with the conversion of the next message, propagating the first
`ValueError`. -/
def convert_fold {J : Type} (lib : JsonLib J) (acc : Except String (List (OMsg J)))
    (m : AMessage J) : Except String (List (OMsg J)) :=
  match acc with
  | Except.error e => Except.error e
  | Except.ok ms =>
    match convert_single_message lib m with
    | Except.error e => Except.error e
    | Except.ok ms2 => Except.ok (ms ++ ms2)

/-- Embedding of `AnthropicToOpenAIConverter._convert_messages`
(`src/core/converters/request_converter.py`): system messages, then the
per-message conversion (the first falsy-content message aborts with
`ValueError`), then the tool-call repair pass. -/
def convert_messages {J : Type} (lib : JsonLib J) (req : AnthropicRequest J) :
    Except String (List (OMsg J)) :=
  let sysMsgs : List (OMsg J) :=
    match req.system with
    | none => []
    | some (SystemField.str s) => if s == "" then [] else convert_system_message (SystemField.str s)
    | some (SystemField.list items) =>
      if items.isEmpty then [] else convert_system_message (SystemField.list items)
  match req.messages.foldl (convert_fold lib) (Except.ok sysMsgs) with
  | Except.error e => Except.error e
  | Except.ok ms => Except.ok (filter_incomplete_tool_calls ms)

/-- Embedding of `validate_anthropic_request`
(`src/core/converters/request_converter.py`). -/
def validate_anthropic_request {J : Type} (req : AnthropicRequest J) : Except String Unit :=
  if req.model == "" then Except.error "模型字段不能为空"
  else if req.messages.isEmpty then Except.error "消息列表不能为空"
  else if req.maxTokens ≤ 0 then Except.error "max_tokens必须是正整数"
  else if (match req.temperature with
           | some t => !(decide ((0 : ℚ) ≤ t) && decide (t ≤ 1))
           | none => false) then Except.error "temperature必须在0.0到1.0之间"
  else if (match req.topP with
           | some t => !(decide ((0 : ℚ) ≤ t) && decide (t ≤ 1))
           | none => false) then Except.error "top_p必须在0.0到1.0之间"
  else
    match req.messages.find? (fun m =>
      m.role == "" || (!(m.role == "user") && !(m.role == "assistant"))) with
    | some _ => Except.error "消息角色必须是user或assistant"
    | none => Except.ok ()

/-- Modelled from the spec: the rewriter stores the estimator's token count
in the token cache under `request_id` at request-translation time (spec
sections 4.2.1 and 3).  The storing call site lives in the HTTP handler
(`src/api/handlers.py`), which is absent from `src/`; the store operation
itself is the `cache_tokens` embedding of `src/common/token_cache.py`, and
the count is the `count_tokens` embedding applied to the request exactly
as `get_target_model` applies it. -/
def rewrite_token_cache_effect {J : Type} (lib : JsonLib J) (enc : String → Nat)
    (req : AnthropicRequest J) (requestId : Option String) (c : TokenCache) : TokenCache :=
  cache_tokens requestId (count_tokens lib enc req.messages req.system req.tools : Int) c

/-- The upstream `usage` object (`prompt_tokens` / `completion_tokens`);
`none` covers both a missing key and an explicit null, which every read
site treats alike. -/
structure RUsage where
  promptTokens : Option Int := none
  completionTokens : Option Int := none
  deriving DecidableEq, Repr

/-- The upstream `function` member of a tool call
(`OpenAIToolCallFunction` in `src/models/openai.py`: both fields
optional). -/
structure RFunc where
  name : Option String := none
  arguments : Option String := none
  deriving DecidableEq, Repr

/-- An upstream tool-call dict as consumed by
`OpenAIToolCall.model_validate`. -/
structure RToolCallData where
  id : Option String := none
  ctype : Option String := none
  func : Option RFunc := none
  deriving DecidableEq, Repr

/-- The upstream `message` dict of a non-streaming choice.  `none` at the
use sites covers a missing key and the falsy `{}`. -/
structure RMessageData where
  role : Option String := none
  content : Option String := none
  reasoningContent : Option String := none
  toolCalls : Option (List RToolCallData) := none
  deriving DecidableEq, Repr

/-- One upstream non-streaming choice. -/
structure RChoiceData where
  message : Option RMessageData := none
  finishReason : Option String := none
  index : Int := 0
  deriving DecidableEq, Repr

/-- The upstream non-streaming response object; `choices = none` covers
both a missing key and an explicit null. -/
structure RResponseData where
  id : String := ""
  choices : Option (List RChoiceData) := none
  usage : Option RUsage := none
  model : Option String := none
  deriving DecidableEq, Repr

/-- Embedding of Anthropic usage as assembled by the converters. -/
structure AUsage where
  inputTokens : Int := 0
  outputTokens : Int := 0
  deriving DecidableEq, Repr

/-- Embedding of `AnthropicMessageResponse` as assembled by
`convert_response`, restricted to the fields the converter computes. -/
structure AResponseV (J : Type) where
  id : String
  content : List (ACBlock J)
  model : Option String
  stopReason : String
  usage : AUsage
  deriving DecidableEq, Repr

/-- Embedding of `safe_json_parse`
(`src/core/converters/response_converter.py`): try `json.loads`, retry
with single quotes turned into double quotes, fall back to the empty
object. -/
def safe_json_parse {J : Type} (lib : JsonLib J) (s : String) : J :=
  if s == "" then lib.emptyObj
  else
    match lib.parse s with
    | some v => v
    | none =>
      match lib.parse (pyReplace s (String.mk [Char.ofNat 39]) (String.mk [Char.ofNat 34])) with
      | some v => v
      | none => lib.emptyObj

/-- Embedding of `OpenAIToAnthropicConverter._map_finish_reason`
(`src/core/converters/response_converter.py`). -/
def map_finish_reason (fr : Option String) : String :=
  match fr with
  | some "stop" => "end_turn"
  | some "length" => "max_tokens"
  | some "content_filter" => "content_filter"
  | some "tool_calls" => "tool_use"
  | some "function_call" => "tool_use"
  | _ => "end_turn"

/-- Embedding of `OpenAIToAnthropicConverter.extract_model_name`
(`src/core/converters/response_converter.py`). -/
def extract_model_name (originalModel responseModel : Option String) : Option String :=
  if pyTruthyOpt originalModel then originalModel else responseModel

/-- Embedding of `OpenAIToAnthropicConverter._convert_usage`
(`src/core/converters/response_converter.py`).  The cache is threaded to
make the effect on it visible: the read uses `get_cached_tokens` without
the delete flag, so the returned cache is the input cache. -/
def convert_usage {J : Type} (lib : JsonLib J) (enc : String → Nat)
    (usageData : Option RUsage) (requestId : Option String)
    (blocks : List (ACBlock J)) (c : TokenCache) : AUsage × TokenCache :=
  let promptTokens : Int :=
    match usageData with
    | some u => u.promptTokens.getD 0
    | none => 0
  let completionTokens : Int :=
    match usageData with
    | some u => u.completionTokens.getD 0
    | none => 0
  let (promptTokens2, c2) :=
    if promptTokens == 0 && pyTruthyOpt requestId then
      let (cached, cAfter) := get_cached_tokens requestId false c
      (match cached with
       | some v => if v == 0 then promptTokens else v
       | none => promptTokens, cAfter)
    else (promptTokens, c)
  let completionTokens2 : Int :=
    if completionTokens == 0 && !blocks.isEmpty then
      (count_response_tokens lib enc blocks : Int)
    else completionTokens
  ({ inputTokens := promptTokens2, outputTokens := completionTokens2 }, c2)

/-- The `OpenAIMessage(...)` pydantic construction inside
`convert_response`: a falsy `message` dict yields no message, otherwise
the `role` literal is validated and a `ValidationError` propagates. -/
def build_choice_message (md : Option RMessageData) : Except String (Option RMessageData) :=
  match md with
  | none => Except.ok none
  | some m =>
    match m.role with
    | some r =>
      if r == "system" || r == "user" || r == "assistant" || r == "tool" then
        Except.ok (some m)
      else Except.error "ValidationError: role"
    | none => Except.error "ValidationError: role"

/-- The `OpenAIToolCall.model_validate` step of the tool-call loop in
`_extract_content_blocks_with_reasoning`: `id` and `function` are
required, `type` must be `"function"` when present. -/
def validate_tool_call (tc : RToolCallData) : Except String (String × RFunc) :=
  match tc.id with
  | none => Except.error "ValidationError: tool_call id"
  | some i =>
    match tc.ctype with
    | some t =>
      if !(t == "function") then Except.error "ValidationError: tool_call type"
      else
        match tc.func with
        | none => Except.error "ValidationError: tool_call function"
        | some f => Except.ok (i, f)
    | none =>
      match tc.func with
      | none => Except.error "ValidationError: tool_call function"
      | some f => Except.ok (i, f)

/-- The tool-call loop of `_extract_content_blocks_with_reasoning`,
appending one `tool_use` block per validated call. -/
def toolCallBlocks {J : Type} (lib : JsonLib J) :
    List RToolCallData → Except String (List (ACBlock J))
  | [] => Except.ok []
  | tc :: rest =>
    match validate_tool_call tc with
    | Except.error e => Except.error e
    | Except.ok (i, f) =>
      match toolCallBlocks lib rest with
      | Except.error e => Except.error e
      | Except.ok bs =>
        Except.ok
          ({ btype := "tool_use", id := some i, name := f.name,
             input := some (match f.arguments with
                            | some a => if a == "" then lib.emptyObj else safe_json_parse lib a
                            | none => lib.emptyObj) } :: bs)

/-- Embedding of
`OpenAIToAnthropicConverter._extract_content_blocks_with_reasoning`
(`src/core/converters/response_converter.py`).  `nowMs` is the current
millisecond timestamp used for synthetic thinking signatures. -/
def extract_content_blocks {J : Type} (lib : JsonLib J) (nowMs : Nat)
    (msg : Option RMessageData) : Except String (List (ACBlock J)) :=
  match msg with
  | none => Except.ok []
  | some md =>
    let reasoningBlocks : List (ACBlock J) :=
      match md.reasoningContent with
      | some rc =>
        if !(rc == "") && !(pyStrip rc == "") then
          [{ btype := "thinking", thinking := some (pyStrip rc),
             signature := some (toString nowMs) }]
        else []
      | none => []
    let contentStr := md.content.getD ""
    let contentBlocks : List (ACBlock J) :=
      if !(contentStr == "") && !(pyStrip contentStr == "") then
        if containsSub contentStr "<think>" && containsSub contentStr "</think>" then
          let matches2 := thinkFindAll contentStr
          let thinkBlocks : List (ACBlock J) :=
            if !matches2.isEmpty &&
               reasoningBlocks.all (fun b => !(b.btype == "thinking")) &&
               !(pyStrip (matches2.headD "") == "") then
              [{ btype := "thinking", thinking := some (pyStrip (matches2.headD "")),
                 signature := some (toString nowMs) }]
            else []
          let cleanContent := pyStrip (thinkRemove contentStr)
          thinkBlocks ++
            (if !(cleanContent == "") then
               [{ btype := "text", text := some cleanContent }]
             else [])
        else [{ btype := "text", text := some (pyStrip contentStr) }]
      else []
    match (match md.toolCalls with
           | some tcs => if !tcs.isEmpty then toolCallBlocks lib tcs else Except.ok []
           | none => Except.ok []) with
    | Except.error e => Except.error e
    | Except.ok toolBlocks =>
      let allBlocks := reasoningBlocks ++ contentBlocks ++ toolBlocks
      Except.ok (if allBlocks.isEmpty then [{ btype := "text", text := some "" }] else allBlocks)

/-- The assembly of an Anthropic response from the first upstream choice
(the body of `convert_response` after the `choices` check). -/
def assemble_first_choice {J : Type} (lib : JsonLib J) (enc : String → Nat) (nowMs : Nat)
    (resp : RResponseData) (fc : RChoiceData) (originalModel requestId : Option String)
    (c : TokenCache) : Except String (AResponseV J × TokenCache) :=
  match build_choice_message fc.message with
  | Except.error e => Except.error e
  | Except.ok msgV =>
    match extract_content_blocks lib nowMs msgV with
    | Except.error e => Except.error e
    | Except.ok blocks =>
      let (usage, c2) := convert_usage lib enc resp.usage requestId blocks c
      Except.ok
        ({ id := resp.id, content := blocks,
           model := extract_model_name originalModel resp.model,
           stopReason := map_finish_reason fc.finishReason,
           usage := usage }, c2)

/-- Embedding of `OpenAIToAnthropicConverter.convert_response`
(`src/core/converters/response_converter.py`): a missing, null or empty
`choices` raises; otherwise the response is assembled from the first
choice. -/
def convert_response {J : Type} (lib : JsonLib J) (enc : String → Nat) (nowMs : Nat)
    (resp : RResponseData) (originalModel requestId : Option String)
    (c : TokenCache) : Except String (AResponseV J × TokenCache) :=
  match resp.choices with
  | none => Except.error "OpenAI响应没有有效的choices"
  | some [] => Except.error "OpenAI响应没有有效的choices"
  | some (fc :: _) => assemble_first_choice lib enc nowMs resp fc originalModel requestId c

/-- The thinking mode of the stream state (`state.thinking_mode`:
`None` / `1` (`<think>` tags) / `2` (`reasoning_content`)). -/
inductive TMode where
  | inlineTag
  | reasoning
  deriving DecidableEq, Repr

/-- The content-block payload of a `content_block_start` stream event. -/
inductive CBlockInfo where
  | thinkingB
  | textB
  | toolUseB (id : String) (name : String)
  deriving DecidableEq, Repr

/-- The delta payload of a `content_block_delta` stream event. -/
inductive EDelta where
  | textDelta (s : String)
  | thinkingDelta (s : String)
  | signatureDelta
  | inputJsonDelta (s : String)
  deriving DecidableEq, Repr

/-- An emitted Anthropic stream event (the semantic content of one SSE
frame produced by `format_event`). -/
inductive SEvent where
  | messageStart (inputTokens : Int)
  | contentBlockStart (index : Nat) (block : CBlockInfo)
  | ping
  | contentBlockDelta (index : Nat) (d : EDelta)
  | contentBlockStop (index : Nat)
  | messageDelta (stopReason : String) (inputTokens outputTokens : Int)
  | messageStop
  | errorEvent (msg : String)
  deriving DecidableEq, Repr

/-- One entry of an upstream `delta.tool_calls` list. -/
structure ToolCallDelta where
  index : Option Nat := none
  id : Option String := none
  fname : Option String := none
  fargs : Option String := none
  deriving DecidableEq, Repr

/-- An upstream streaming `delta` object; each field is `none` when the key
is absent (or null, which every read site treats alike). -/
structure DeltaObj where
  role : Option String := none
  content : Option String := none
  reasoningContent : Option String := none
  toolCalls : Option (List ToolCallDelta) := none
  deriving DecidableEq, Repr

/-- One upstream streaming choice. -/
structure SChoice where
  delta : Option DeltaObj := none
  finishReason : Option String := none
  usage : Option RUsage := none
  deriving DecidableEq, Repr

/-- One parsed upstream SSE chunk (the json object of a `data:` line);
`error` carries the serialized `error` member when present. -/
structure SChunk where
  error : Option String := none
  choices : List SChoice := []
  usage : Option RUsage := none
  deriving DecidableEq, Repr

/-- A stored tool call of the stream state
(`state.tool_calls[tool_call_index]`). -/
structure ToolCallInfo where
  id : String
  name : String
  arguments : String
  contentBlockIndex : Nat
  deriving DecidableEq, Repr

/-- Embedding of `StreamState`
(`src/core/converters/response_converter.py`). -/
structure StreamState where
  hasStarted : Bool := false
  contentStarted : Bool := false
  hasTextContentStarted : Bool := false
  hasFinished : Bool := false
  thinkingStarted : Bool := false
  thinkingFinish : Bool := false
  contentIndex : Nat := 0
  thinkingMode : Option TMode := none
  totalChunks : Nat := 0
  toolCallChunks : Nat := 0
  toolCalls : List (Nat × ToolCallInfo) := []
  toolIdxToBlockIdx : List (Nat × Nat) := []
  accumulatedContent : List String := []
  deriving DecidableEq, Repr

/-- Python truthiness of a `delta` dict (`not delta`): with the modelled
key set, the dict is empty exactly when all fields are absent. -/
def deltaFalsy (d : DeltaObj) : Bool :=
  d.role.isNone && d.content.isNone && d.reasoningContent.isNone && d.toolCalls.isNone

/-- Embedding of `check_thinking_content`
(`src/core/converters/response_converter.py`); returns the boolean result
and the state (whose `thinking_mode` the check may set). -/
def check_thinking_content (delta : DeltaObj) (s : StreamState) : Bool × StreamState :=
  if deltaFalsy delta then (false, s)
  else if s.thinkingMode.isSome then (true, s)
  else
    let c := delta.content.getD ""
    if containsSub c "<think>" || containsSub c "<thinking>" then
      (true, { s with thinkingMode := some TMode.inlineTag })
    else if pyTruthyOpt delta.reasoningContent then
      (true, { s with thinkingMode := some TMode.reasoning })
    else (false, s)

/-- Embedding of `check_regular_content`
(`src/core/converters/response_converter.py`). -/
def check_regular_content (delta : DeltaObj) (s : StreamState) : Bool :=
  s.thinkingMode.isNone && pyTruthyOpt delta.content

/-- Embedding of `process_regular_content`
(`src/core/converters/response_converter.py`). -/
def process_regular_content (delta : DeltaObj) (s : StreamState) :
    List SEvent × StreamState :=
  if !check_regular_content delta s then ([], s)
  else
    let (startEvs, s1) :=
      if !s.contentStarted then
        ([SEvent.contentBlockStart s.contentIndex CBlockInfo.textB, SEvent.ping],
         { s with contentStarted := true, hasTextContentStarted := true })
      else ([], s)
    let c := delta.content.getD ""
    let s2 :=
      if !(c == "") then { s1 with accumulatedContent := s1.accumulatedContent ++ [c] }
      else s1
    (startEvs ++ [SEvent.contentBlockDelta s2.contentIndex (EDelta.textDelta c)], s2)

/-- Embedding of `process_thinking_content`
(`src/core/converters/response_converter.py`).  A `none` event list marks
the `TypeError` the source raises when `thinking_mode == 1` and the delta
has no `content` (`"</think>" in None`); the driver catches it, so the
events built so far are discarded while the state mutations made before
the raise persist. -/
def process_thinking_content (delta : DeltaObj) (s0 : StreamState) :
    Option (List SEvent) × StreamState :=
  let (isThinking, s1) := check_thinking_content delta s0
  let (startEvs, s2) :=
    if !s1.thinkingStarted && isThinking then
      ([SEvent.contentBlockStart s1.contentIndex CBlockInfo.thinkingB, SEvent.ping],
       { s1 with thinkingStarted := true })
    else ([], s1)
  let extracted : Option (Option String × StreamState) :=
    match s2.thinkingMode with
    | some TMode.inlineTag =>
      match delta.content with
      | none => none
      | some c =>
        let s3 :=
          if containsSub c "</think>" || containsSub c "</thinking>" then
            { s2 with thinkingMode := none }
          else s2
        some (some (pyReplace (pyReplace c "<think>" "") "</think>" ""), s3)
    | some TMode.reasoning => some (delta.reasoningContent, s2)
    | none => some (none, s2)
  match extracted with
  | none => (none, s2)
  | some (thinkingContent, s3) =>
    let (deltaEvs, s4) :=
      match thinkingContent with
      | some t =>
        if !(t == "") then
          ([SEvent.contentBlockDelta s3.contentIndex (EDelta.thinkingDelta t)],
           { s3 with accumulatedContent := s3.accumulatedContent ++ [t] })
        else ([], s3)
      | none => ([], s3)
    if thinkingContent.isNone && !s4.thinkingFinish then
      (some (startEvs ++ deltaEvs ++
         [SEvent.contentBlockDelta s4.contentIndex EDelta.signatureDelta,
          SEvent.contentBlockStop s4.contentIndex]),
       { s4 with thinkingMode := none, thinkingFinish := true,
                 contentIndex := s4.contentIndex + 1 })
    else (some (startEvs ++ deltaEvs), s4)

/-- The body of the `for tool_call in delta["tool_calls"]` loop of
`process_tool_calls` for one entry; `nowMs` feeds the synthetic
`call_<ms>_<k>` ids. -/
def processOneToolCall (nowMs : Nat) (tc : ToolCallDelta)
    (acc : List Nat × List SEvent × StreamState) :
    List Nat × List SEvent × StreamState :=
  let (processed, evs, s) := acc
  let k := tc.index.getD 0
  if processed.contains k then acc
  else
    let processed2 := processed ++ [k]
    let (evs2, s2) :=
      if (alGet s.toolIdxToBlockIdx k).isNone then
        let newBlockIdx :=
          if s.hasTextContentStarted then s.toolIdxToBlockIdx.length + 1
          else s.toolIdxToBlockIdx.length
        let (stopEvs, sA) :=
          if !(newBlockIdx == 0) then
            ([SEvent.contentBlockStop s.contentIndex],
             { s with contentIndex := s.contentIndex + 1 })
          else ([], s)
        let sB := { sA with toolIdxToBlockIdx := alInsert sA.toolIdxToBlockIdx k newBlockIdx }
        let callId :=
          match tc.id with
          | some i => if i == "" then "call_" ++ toString nowMs ++ "_" ++ toString k else i
          | none => "call_" ++ toString nowMs ++ "_" ++ toString k
        let callName :=
          match tc.fname with
          | some n => if n == "" then "tool_" ++ toString k else n
          | none => "tool_" ++ toString k
        let sC :=
          if !(callName == "") && !pyStartsWith callName "tool_" then
            { sB with accumulatedContent := sB.accumulatedContent ++ [callName] }
          else sB
        let newInfo : ToolCallInfo :=
          { id := callId, name := callName, arguments := "", contentBlockIndex := newBlockIdx }
        let sD := { sC with toolCalls := alInsert sC.toolCalls k newInfo }
        (stopEvs ++
          [SEvent.contentBlockStart sD.contentIndex (CBlockInfo.toolUseB callId callName),
           SEvent.ping], sD)
      else if pyTruthyOpt tc.id && pyTruthyOpt tc.fname && (alGet s.toolCalls k).isSome then
        match alGet s.toolCalls k with
        | some info =>
          if pyStartsWith info.id "call_" && pyStartsWith info.name "tool_" then
            let updated := { info with id := tc.id.getD "", name := tc.fname.getD "" }
            ([], { s with toolCalls := alInsert s.toolCalls k updated })
          else ([], s)
        | none => ([], s)
      else ([], s)
    let (evs3, s3) :=
      if pyTruthyOpt tc.fargs && !s2.hasFinished then
        let args := tc.fargs.getD ""
        let sE := { s2 with accumulatedContent := s2.accumulatedContent ++ [args] }
        let sF :=
          match alGet sE.toolCalls k with
          | some info =>
            let updated := { info with arguments := info.arguments ++ args }
            { sE with toolCalls := alInsert sE.toolCalls k updated }
          | none => sE
        ([SEvent.contentBlockDelta sF.contentIndex (EDelta.inputJsonDelta args)], sF)
      else ([], s2)
    (processed2, evs ++ evs2 ++ evs3, s3)

/-- Embedding of `process_tool_calls`
(`src/core/converters/response_converter.py`). -/
def process_tool_calls (nowMs : Nat) (delta : DeltaObj) (s : StreamState) :
    List SEvent × StreamState :=
  let s1 := { s with toolCallChunks := s.toolCallChunks + 1 }
  let (_, evs, s2) :=
    (delta.toolCalls.getD []).foldl (fun acc tc => processOneToolCall nowMs tc acc)
      (([], [], s1) : List Nat × List SEvent × StreamState)
  (evs, s2)

/-- Embedding of `process_finish_event`
(`src/core/converters/response_converter.py`): the closing
`content_block_stop` is emitted unconditionally (its guard is commented
out in the source), the stop reason is mapped, and usage is filled from
the chunk, the token cache (with deletion) or the accumulated output. -/
def process_finish_event (enc : String → Nat) (chunk : SChunk) (requestId : Option String)
    (s : StreamState) (c : TokenCache) : List SEvent × StreamState × TokenCache :=
  let s1 := { s with hasFinished := true }
  let choice := chunk.choices.headD {}
  let stopReason :=
    match choice.finishReason with
    | some "stop" => "end_turn"
    | some "length" => "max_tokens"
    | some "tool_calls" => "tool_use"
    | some "content_filter" => "stop_sequence"
    | _ => "end_turn"
  let usageData : Option RUsage :=
    match choice.usage with
    | some u => some u
    | none => chunk.usage
  let promptTokens : Int := (usageData.bind (fun u => u.promptTokens)).getD 0
  let (inputTokens, c2) :=
    if promptTokens == 0 then
      let (cached, cAfter) := get_cached_tokens requestId true c
      (match cached with
       | some v => if v == 0 then promptTokens else v
       | none => promptTokens, cAfter)
    else (promptTokens, c)
  let completionTokens : Int := (usageData.bind (fun u => u.completionTokens)).getD 0
  let outputTokens : Int :=
    if completionTokens == 0 && !s1.accumulatedContent.isEmpty then
      (enc (pyJoin s1.accumulatedContent) : Int)
    else completionTokens
  ([SEvent.contentBlockStop s1.contentIndex,
    SEvent.messageDelta stopReason inputTokens outputTokens,
    SEvent.messageStop], s1, c2)

/-- Embedding of the per-data-line body of
`convert_openai_stream_to_anthropic_stream`
(`src/core/converters/response_converter.py`), from a successfully parsed
chunk to the events it yields and the updated state and cache. -/
def stepChunk (enc : String → Nat) (nowMs : Nat) (requestId : Option String)
    (st : StreamState × TokenCache) (chunk : SChunk) :
    StreamState × TokenCache × List SEvent :=
  let (s0, c0) := st
  let s := { s0 with totalChunks := s0.totalChunks + 1 }
  match chunk.error with
  | some e => (s, c0, [SEvent.errorEvent e])
  | none =>
    let (startEvs, s1) :=
      if !s.hasStarted && !s.hasFinished then
        let cached := (get_cached_tokens requestId false c0).fst
        let inputTokens : Int :=
          match cached with
          | some v => if v == 0 then 0 else v
          | none => 0
        ([SEvent.messageStart inputTokens], { s with hasStarted := true })
      else ([], s)
    match chunk.choices.head? with
    | none => (s1, c0, startEvs)
    | some choice =>
      match choice.delta with
      | none => (s1, c0, startEvs)
      | some delta =>
        let hasContent := pyTruthyOpt delta.content
        let hasReasoning := pyTruthyOpt delta.reasoningContent
        let hasToolCalls := !(delta.toolCalls.getD []).isEmpty
        if !hasContent && !hasReasoning && !hasToolCalls && choice.finishReason.isNone then
          (s1, c0, startEvs)
        else
          match process_thinking_content delta s1 with
          | (none, s2) => (s2, c0, startEvs)
          | (some thinkingEvs, s2) =>
            if !thinkingEvs.isEmpty then (s2, c0, startEvs ++ thinkingEvs)
            else
              let (regularEvs, s3) := process_regular_content delta s2
              if !regularEvs.isEmpty then (s3, c0, startEvs ++ regularEvs)
              else
                let (toolEvs, s4) :=
                  if hasToolCalls then process_tool_calls nowMs delta s3 else ([], s3)
                if hasToolCalls && !toolEvs.isEmpty then (s4, c0, startEvs ++ toolEvs)
                else
                  match choice.finishReason with
                  | some fr =>
                    if !(fr == "") then
                      let (finishEvs, s5, c5) := process_finish_event enc chunk requestId s4 c0
                      (s5, c5, startEvs ++ finishEvs)
                    else (s4, c0, startEvs)
                  | none => (s4, c0, startEvs)

/-- The chunk loop of `convert_openai_stream_to_anthropic_stream`: events
of each parsed chunk in order, stopping once the state is finished. -/
def runStreamGo (enc : String → Nat) (nowMs : Nat) (requestId : Option String) :
    StreamState × TokenCache → List SChunk → List SEvent
  | _, [] => []
  | (s, c), chunk :: rest =>
    if s.hasFinished then []
    else
      let (s2, c2, evs) := stepChunk enc nowMs requestId (s, c) chunk
      evs ++ runStreamGo enc nowMs requestId (s2, c2) rest

/-- Embedding of
`OpenAIToAnthropicConverter.convert_openai_stream_to_anthropic_stream`
(`src/core/converters/response_converter.py`) at the parsed-chunk level:
the Anthropic events emitted for an upstream chunk sequence, starting
from the fresh per-stream state. -/
def runStream (enc : String → Nat) (nowMs : Nat) (requestId : Option String)
    (chunks : List SChunk) (c : TokenCache) : List SEvent :=
  runStreamGo enc nowMs requestId ({}, c) chunks

/-- Number of `content_block_start` events in an emitted sequence. -/
def countStarts (es : List SEvent) : Nat :=
  (es.filter (fun e =>
    match e with
    | SEvent.contentBlockStart _ _ => true
    | _ => false)).length

/-- Number of `content_block_stop` events in an emitted sequence. -/
def countStops (es : List SEvent) : Nat :=
  (es.filter (fun e =>
    match e with
    | SEvent.contentBlockStop _ => true
    | _ => false)).length

/-- The output invariant of the repair pass that the code actually
guarantees: every assistant message carrying non-empty `tool_calls` is
immediately followed by contiguous `tool` messages that cover all of its
declared truthy tool-call ids (foreign tool messages may also sit in the
span). -/
def spansOK {J : Type} : List (OMsg J) → Bool
  | [] => true
  | m :: rest =>
    (if isAsstTC m then
       coversIds (declaredIds m.toolCalls) (rest.takeWhile (fun x => x.role == "tool"))
     else true) &&
    spansOK rest

/-- The claimed (stricter) output invariant: the span's tool messages cover
the declared ids exactly, with no tool message carrying a foreign id
inside the span. -/
def claimedToolIntegrity {J : Type} : List (OMsg J) → Bool
  | [] => true
  | m :: rest =>
    (if isAsstTC m then
       let span := rest.takeWhile (fun x => x.role == "tool")
       let ids := declaredIds m.toolCalls
       coversIds ids span &&
         span.all (fun t =>
           match t.toolCallId with
           | some s => ids.contains s
           | none => false)
     else true) &&
    claimedToolIntegrity rest

/-- A visited prefix on which the backward scan of the repair pass can
never succeed, whatever id it looks for. -/
def goodPrev {J : Type} (prev : List (OMsg J)) : Prop :=
  ∀ tid, hasDeclAsst prev tid = false

/-- Whether a message list does not start with a `tool` message. -/
def headNotTool {J : Type} : List (OMsg J) → Prop
  | [] => True
  | m :: _ => (m.role == "tool") = false

/-- Whether the `thinking` field survives the `thinking["type"]` subscript
in `get_target_model` (absent, or an object carrying a `"type"` key). -/
def thinking_subscript_ok (t : Option ThinkingField) : Bool :=
  match t with
  | none => true
  | some (ThinkingField.objVal kvs) => (alGet kvs "type").isSome
  | some (ThinkingField.boolVal _) => false

/-- A converted message list with one assistant tool-call span followed by
a tool message whose id is foreign to the assistant's declarations. -/
def exC3 : List (OMsg String) :=
  [ { role := "assistant",
      toolCalls := [{ id := some "t1", fname := some "f", farguments := "" }] },
    { role := "tool", content := some (OContent.str "ok"), toolCallId := some "t1" },
    { role := "tool", content := some (OContent.str "extra"), toolCallId := some "t2" } ]

/-- An assistant message declaring the single tool-call id `t1`. -/
def exC3asst : OMsg String :=
  { role := "assistant",
    toolCalls := [{ id := some "t1", fname := some "f", farguments := "" }] }

/-- A continuation whose contiguous tool messages miss the declared id. -/
def exC3rest : List (OMsg String) :=
  [ { role := "tool", content := some (OContent.str "nope"), toolCallId := some "t2" },
    { role := "user", content := some (OContent.str "hi") } ]

/-- A tool message standing at the head of a list, with no earlier
assistant at all. -/
def exC3orphan : OMsg String :=
  { role := "tool", content := some (OContent.str "lost"), toolCallId := some "t9" }

/-- The configuration of the model-mapping integration tests: `think` is
`claude-3-7-sonnet-thinking`. -/
def cfgC4 : AppConfig :=
  { models := { defaultModel := some "claude-3-5-sonnet",
                small := some "claude-3-5-haiku",
                think := some "claude-3-7-sonnet-thinking",
                longContext := some "long-context-model" } }

/-- The request of `test_convert_with_thinking_model`
(`src/tests/integration/test_model_mapping_integration.py`): boolean
`thinking=True`. -/
def reqC4 : AnthropicRequest String :=
  { model := "claude-3-5-sonnet-20241022",
    messages := [{ role := "user", content := MContent.str "hello" }],
    maxTokens := 100,
    thinking := some (ThinkingField.boolVal true) }

/-- A configuration with all routing slots set, for the long-context
scenarios. -/
def cfgC7 : AppConfig :=
  { models := { defaultModel := some "default-model",
                small := some "small-model",
                think := some "think-model",
                longContext := some "long-context-model" } }

/-- A long request (under a tokenizer reporting 200001 tokens) whose
`thinking` field is the boolean form. -/
def reqC7 : AnthropicRequest String :=
  { model := "claude-sonnet-4",
    messages := [{ role := "user", content := MContent.str "hello" }],
    maxTokens := 100,
    thinking := some (ThinkingField.boolVal true) }

/-- A long request without a `thinking` field, for the amended
long-context theorem's witness. -/
def reqC7w : AnthropicRequest String :=
  { model := "claude-3-5-haiku",
    messages := [{ role := "user", content := MContent.str "hello" }],
    maxTokens := 100 }

/-- A request that passes `validate_anthropic_request` but carries a
message with empty string content. -/
def reqC9 : AnthropicRequest String :=
  { model := "claude-3",
    messages := [{ role := "user", content := MContent.str "" }],
    maxTokens := 10 }

/-- A request with non-empty text, for the cache-write witness. -/
def reqC5 : AnthropicRequest String :=
  { model := "claude-3-5-sonnet",
    messages := [{ role := "user", content := MContent.str "hello" }],
    maxTokens := 100 }

/-- A validating request whose only message content is a single image
block: it converts successfully, but images contribute no textual
surface to the estimator, so its token count is zero under any tokenizer
with `enc "" = 0` (as the real BPE encoder has). -/
def reqC5img : AnthropicRequest String :=
  { model := "claude-3-5-sonnet",
    messages := [{ role := "user",
                   content := MContent.blocks
                     [{ btype := "image", source := some "img-bytes" }] }],
    maxTokens := 100 }

/-- An upstream choice with a plain assistant text message. -/
def choiceC8 : RChoiceData :=
  { message := some { role := some "assistant", content := some "hello" },
    finishReason := some "stop" }

/-- An upstream response with one plain choice and full usage. -/
def respC8 : RResponseData :=
  { id := "resp-1",
    choices := some [choiceC8],
    usage := some { promptTokens := some 3, completionTokens := some 2 },
    model := some "gpt-test" }

/-- The upstream chunk sequence of the inline-thinking streaming scenario:
`<think>`, `plan`, `</think>`, `Hello`, then a finish chunk. -/
def c1Chunks : List SChunk :=
  [ { choices := [{ delta := some { content := some "<think>" } }] },
    { choices := [{ delta := some { content := some "plan" } }] },
    { choices := [{ delta := some { content := some "</think>" } }] },
    { choices := [{ delta := some { content := some "Hello" } }] },
    { choices := [{ delta := some ({} : DeltaObj), finishReason := some "stop" }] } ]

/-- A stream whose only chunk carries a finish reason and no content. -/
def c2Chunks : List SChunk :=
  [ { choices := [{ delta := some ({} : DeltaObj), finishReason := some "stop" }] } ]

theorem alGet_alInsert {K V : Type} [BEq K] [LawfulBEq K]
    (l : List (K × V)) (k : K) (v : V) : alGet (alInsert l k v) k = some v := by
  induction l with
  | nil => simp [alGet, alInsert, List.find?]
  | cons p t ih =>
    by_cases h1 : (p.1 == k) = true
    · have hany : ((p :: t).any fun q => q.1 == k) = true := by
        simp [List.any_cons, h1]
      unfold alInsert
      rw [if_pos hany, List.map_cons, if_pos h1]
      unfold alGet
      rw [List.find?_cons_of_pos _ (by simp)]
      rfl
    · have h1f : (p.1 == k) = false := by simpa using h1
      by_cases h2 : (t.any fun q => q.1 == k) = true
      · have hany : ((p :: t).any fun q => q.1 == k) = true := by
          simp [List.any_cons, h2]
        have ih2 : alGet (List.map (fun q => if q.1 == k then (k, v) else q) t) k = some v := by
          have h3 := ih
          unfold alInsert at h3
          rw [if_pos h2] at h3
          exact h3
        unfold alInsert
        rw [if_pos hany, List.map_cons, if_neg h1]
        unfold alGet at ih2 ⊢
        rw [List.find?_cons_of_neg _ (by simpa using h1)]
        exact ih2
      · have hany : ¬ (((p :: t).any fun q => q.1 == k) = true) := by
          simp [List.any_cons, h1f, h2]
        have ih2 : alGet (t ++ [(k, v)]) k = some v := by
          have h3 := ih
          unfold alInsert at h3
          rw [if_neg h2] at h3
          exact h3
        unfold alInsert
        rw [if_neg hany, List.cons_append]
        unfold alGet at ih2 ⊢
        rw [List.find?_cons_of_neg _ (by simpa using h1)]
        exact ih2

theorem dropWhile_length_le {α : Type} (p : α → Bool) (l : List α) :
    (l.dropWhile p).length ≤ l.length := by
  induction l with
  | nil => simp [List.dropWhile]
  | cons a t ih =>
    by_cases h : p a = true
    · simp only [List.dropWhile, h]
      exact Nat.le_succ_of_le ih
    · simp [List.dropWhile, h]

theorem mem_takeWhile_pred {α : Type} (p : α → Bool) (l : List α) :
    ∀ x ∈ l.takeWhile p, p x = true := by
  induction l with
  | nil => simp [List.takeWhile]
  | cons a t ih =>
    by_cases h : p a = true
    · simp only [List.takeWhile, h]
      intro x hx
      rcases List.mem_cons.mp hx with rfl | hx2
      · exact h
      · exact ih x hx2
    · simp [List.takeWhile, h]

theorem takeWhile_append_all {α : Type} (p : α → Bool) (s t : List α)
    (h : ∀ x ∈ s, p x = true) : (s ++ t).takeWhile p = s ++ t.takeWhile p := by
  induction s with
  | nil => simp
  | cons a s2 ih =>
    have ha : p a = true := h a (List.mem_cons_self a s2)
    simp only [List.cons_append, List.takeWhile, ha, List.append_eq]
    rw [ih (fun x hx => h x (List.mem_cons_of_mem a hx))]

theorem coversIds_append {J : Type} (ids : List String) (span u : List (OMsg J))
    (h : coversIds ids span = true) : coversIds ids (span ++ u) = true := by
  simp only [coversIds, List.all_eq_true] at h ⊢
  intro d hd
  have := h d hd
  simp only [List.any_append, this, Bool.true_or]

theorem tool_not_asstTC {J : Type} (m : OMsg J) (h : (m.role == "tool") = true) :
    isAsstTC m = false := by
  have : m.role = "tool" := by simpa using h
  simp [isAsstTC, this]

theorem spansOK_append_nonasst {J : Type} (s t : List (OMsg J))
    (h : ∀ x ∈ s, isAsstTC x = false) : spansOK (s ++ t) = spansOK t := by
  induction s with
  | nil => simp
  | cons a s2 ih =>
    have ha : isAsstTC a = false := h a (List.mem_cons_self a s2)
    simp only [List.cons_append, spansOK, ha, if_false, Bool.true_and]
    exact ih (fun x hx => h x (List.mem_cons_of_mem a hx))

theorem spansOK_filterGo {J : Type} :
    ∀ (fuel : Nat) (prev l : List (OMsg J)), l.length ≤ fuel →
      spansOK (filterGo fuel prev l) = true := by
  intro fuel
  induction fuel with
  | zero =>
    intro prev l _
    simp [filterGo, spansOK]
  | succ f ih =>
    intro prev l hlen
    match l with
    | [] => simp [filterGo, spansOK]
    | m :: rest =>
      have hrest : rest.length ≤ f := by
        simpa [List.length_cons, Nat.succ_le_succ_iff] using hlen
      by_cases hA : isAsstTC m = true
      · by_cases hc :
          coversIds (declaredIds m.toolCalls)
            (rest.takeWhile (fun x => x.role == "tool")) = true
        · have hout :
            filterGo (f + 1) prev (m :: rest) =
              m :: (rest.takeWhile (fun x => x.role == "tool") ++
                filterGo f
                  ((rest.takeWhile (fun x => x.role == "tool")).reverse ++ m :: prev)
                  (rest.dropWhile (fun x => x.role == "tool"))) := by
            simp only [filterGo, hA, if_true, hc]
          rw [hout]
          have htools :
              ∀ x ∈ rest.takeWhile (fun x => x.role == "tool"),
                (fun x : OMsg J => x.role == "tool") x = true :=
            mem_takeWhile_pred _ rest
          have hnonasst :
              ∀ x ∈ rest.takeWhile (fun x => x.role == "tool"), isAsstTC x = false :=
            fun x hx => tool_not_asstTC x (htools x hx)
          have hdroplen : (rest.dropWhile (fun x => x.role == "tool")).length ≤ f :=
            Nat.le_trans (dropWhile_length_le _ rest) hrest
          have hrec :
              spansOK
                (filterGo f
                  ((rest.takeWhile (fun x => x.role == "tool")).reverse ++ m :: prev)
                  (rest.dropWhile (fun x => x.role == "tool"))) = true :=
            ih _ _ hdroplen
          have htail :
              spansOK
                (rest.takeWhile (fun x => x.role == "tool") ++
                  filterGo f
                    ((rest.takeWhile (fun x => x.role == "tool")).reverse ++ m :: prev)
                    (rest.dropWhile (fun x => x.role == "tool"))) = true := by
            rw [spansOK_append_nonasst _ _ hnonasst]
            exact hrec
          have hcover2 :
              coversIds (declaredIds m.toolCalls)
                ((rest.takeWhile (fun x => x.role == "tool") ++
                  filterGo f
                    ((rest.takeWhile (fun x => x.role == "tool")).reverse ++ m :: prev)
                    (rest.dropWhile (fun x => x.role == "tool"))).takeWhile
                  (fun x => x.role == "tool")) = true := by
            rw [takeWhile_append_all _ _ _ htools]
            exact coversIds_append _ _ _ hc
          simp only [spansOK, hA, if_true, hcover2, htail, Bool.and_self]
        · have hout :
            filterGo (f + 1) prev (m :: rest) =
              filterGo f
                ((rest.takeWhile (fun x => x.role == "tool")).reverse ++ m :: prev)
                (rest.dropWhile (fun x => x.role == "tool")) := by
            simp only [filterGo, hA, if_true]
            rw [if_neg hc]
          rw [hout]
          exact ih _ _ (Nat.le_trans (dropWhile_length_le _ rest) hrest)
      · have hAf : isAsstTC m = false := by simpa using hA
        by_cases hT : (m.role == "tool") = true
        · by_cases hD : hasDeclAsst prev m.toolCallId = true
          · have hout :
              filterGo (f + 1) prev (m :: rest) = m :: filterGo f (m :: prev) rest := by
              simp only [filterGo, hAf, Bool.false_eq_true, if_false, hT, if_true, hD]
            rw [hout]
            simp only [spansOK, hAf, Bool.false_eq_true, if_false, Bool.true_and]
            exact ih _ _ hrest
          · have hout :
              filterGo (f + 1) prev (m :: rest) = filterGo f (m :: prev) rest := by
              simp only [filterGo, hAf, Bool.false_eq_true, if_false, hT, if_true]
              rw [if_neg hD]
            rw [hout]
            exact ih _ _ hrest
        · have hout :
            filterGo (f + 1) prev (m :: rest) = m :: filterGo f (m :: prev) rest := by
            simp only [filterGo, hAf, Bool.false_eq_true, if_false]
            rw [if_neg hT]
          rw [hout]
          simp only [spansOK, hAf, Bool.false_eq_true, if_false, Bool.true_and]
          exact ih _ _ hrest

theorem goodPrev_nil {J : Type} : goodPrev ([] : List (OMsg J)) :=
  fun _ => rfl

theorem goodPrev_cons_tool {J : Type} (m : OMsg J) (p : List (OMsg J))
    (hT : (m.role == "tool") = true) (hp : goodPrev p) : goodPrev (m :: p) := by
  intro tid
  have hA : isAsstTC m = false := tool_not_asstTC m hT
  simp [hasDeclAsst, hA, hT, hp tid]

theorem goodPrev_cons_other {J : Type} (m : OMsg J) (p : List (OMsg J))
    (hA : isAsstTC m = false) (hT : (m.role == "tool") = false) : goodPrev (m :: p) := by
  intro tid
  simp [hasDeclAsst, hA, hT]

theorem headNotTool_dropWhile {J : Type} (l : List (OMsg J)) :
    headNotTool (l.dropWhile (fun x => x.role == "tool")) := by
  induction l with
  | nil => simp [List.dropWhile, headNotTool]
  | cons a t ih =>
    by_cases h : (a.role == "tool") = true
    · simpa [List.dropWhile, h] using ih
    · have hf : (a.role == "tool") = false := by simpa using h
      simp [List.dropWhile, hf, headNotTool]

theorem filterGo_nil {J : Type} (f : Nat) (prev : List (OMsg J)) :
    filterGo f prev [] = [] := by
  cases f <;> rfl

theorem filterGo_prev_eq {J : Type} :
    ∀ (fuel : Nat) (p q l : List (OMsg J)),
      (goodPrev p ∨ headNotTool l) → (goodPrev q ∨ headNotTool l) →
      filterGo fuel p l = filterGo fuel q l := by
  intro fuel
  induction fuel with
  | zero => intro p q l _ _; rfl
  | succ f ih =>
    intro p q l hp hq
    match l with
    | [] => rfl
    | m :: rest =>
      by_cases hA : isAsstTC m = true
      · have hrec :
            filterGo f ((rest.takeWhile (fun x => x.role == "tool")).reverse ++ m :: p)
              (rest.dropWhile (fun x => x.role == "tool")) =
            filterGo f ((rest.takeWhile (fun x => x.role == "tool")).reverse ++ m :: q)
              (rest.dropWhile (fun x => x.role == "tool")) :=
          ih _ _ _ (Or.inr (headNotTool_dropWhile rest))
            (Or.inr (headNotTool_dropWhile rest))
        by_cases hc :
          coversIds (declaredIds m.toolCalls)
            (rest.takeWhile (fun x => x.role == "tool")) = true
        · simp only [filterGo, hA, if_true, hc]
          rw [hrec]
        · simp only [filterGo, hA, if_true]
          rw [if_neg hc, if_neg hc, hrec]
      · have hAf : isAsstTC m = false := by simpa using hA
        by_cases hT : (m.role == "tool") = true
        · have hgp : goodPrev p := by
            rcases hp with h | h
            · exact h
            · have h2 : (m.role == "tool") = false := h
              rw [h2] at hT
              cases hT
          have hgq : goodPrev q := by
            rcases hq with h | h
            · exact h
            · have h2 : (m.role == "tool") = false := h
              rw [h2] at hT
              cases hT
          have hrec : filterGo f (m :: p) rest = filterGo f (m :: q) rest :=
            ih _ _ _ (Or.inl (goodPrev_cons_tool m p hT hgp))
              (Or.inl (goodPrev_cons_tool m q hT hgq))
          simp only [filterGo, hAf, Bool.false_eq_true, if_false, hT, if_true,
            hgp m.toolCallId, hgq m.toolCallId]
          exact hrec
        · have hTf : (m.role == "tool") = false := by simpa using hT
          have hrec : filterGo f (m :: p) rest = filterGo f (m :: q) rest :=
            ih _ _ _ (Or.inl (goodPrev_cons_other m p hAf hTf))
              (Or.inl (goodPrev_cons_other m q hAf hTf))
          simp only [filterGo, hAf, Bool.false_eq_true, if_false]
          rw [if_neg hT, if_neg hT, hrec]

theorem filterGo_fuel_eq {J : Type} :
    ∀ (f1 f2 : Nat) (prev l : List (OMsg J)), l.length ≤ f1 → l.length ≤ f2 →
      filterGo f1 prev l = filterGo f2 prev l := by
  intro f1
  induction f1 with
  | zero =>
    intro f2 prev l h1 _
    have hl : l = [] := List.length_eq_zero.mp (Nat.le_zero.mp h1)
    subst hl
    rw [filterGo_nil, filterGo_nil]
  | succ f ih =>
    intro f2 prev l h1 h2
    match l with
    | [] => rw [filterGo_nil, filterGo_nil]
    | m :: rest =>
      cases f2 with
      | zero =>
        rw [List.length_cons] at h2
        exact absurd h2 (Nat.not_succ_le_zero _)
      | succ f2 =>
        have hr1 : rest.length ≤ f := by
          simpa [List.length_cons, Nat.succ_le_succ_iff] using h1
        have hr2 : rest.length ≤ f2 := by
          simpa [List.length_cons, Nat.succ_le_succ_iff] using h2
        by_cases hA : isAsstTC m = true
        · have hrec :
              filterGo f ((rest.takeWhile (fun x => x.role == "tool")).reverse ++ m :: prev)
                (rest.dropWhile (fun x => x.role == "tool")) =
              filterGo f2 ((rest.takeWhile (fun x => x.role == "tool")).reverse ++ m :: prev)
                (rest.dropWhile (fun x => x.role == "tool")) :=
            ih f2 _ _ (Nat.le_trans (dropWhile_length_le _ rest) hr1)
              (Nat.le_trans (dropWhile_length_le _ rest) hr2)
          by_cases hc :
            coversIds (declaredIds m.toolCalls)
              (rest.takeWhile (fun x => x.role == "tool")) = true
          · simp only [filterGo, hA, if_true, hc]
            rw [hrec]
          · simp only [filterGo, hA, if_true]
            rw [if_neg hc, if_neg hc, hrec]
        · have hAf : isAsstTC m = false := by simpa using hA
          have hrec : filterGo f (m :: prev) rest = filterGo f2 (m :: prev) rest :=
            ih f2 _ _ hr1 hr2
          by_cases hT : (m.role == "tool") = true
          · by_cases hD : hasDeclAsst prev m.toolCallId = true
            · simp only [filterGo, hAf, Bool.false_eq_true, if_false, hT, if_true, hD]
              rw [hrec]
            · simp only [filterGo, hAf, Bool.false_eq_true, if_false, hT, if_true]
              rw [if_neg hD, if_neg hD, hrec]
          · simp only [filterGo, hAf, Bool.false_eq_true, if_false]
            rw [if_neg hT, if_neg hT, hrec]

theorem convert_fold_keeps_error {J : Type} (lib : JsonLib J) (msgs : List (AMessage J))
    (e : String) : msgs.foldl (convert_fold lib) (Except.error e) = Except.error e := by
  induction msgs with
  | nil => rfl
  | cons m t ih =>
    simp only [List.foldl_cons, convert_fold]
    exact ih

theorem convert_single_message_empty {J : Type} (lib : JsonLib J) (m : AMessage J)
    (he : m.content = MContent.str "" ∨ m.content = MContent.blocks []) :
    convert_single_message lib m = Except.error "Anthropic消息内容不能为空" := by
  rcases he with h | h <;> simp [convert_single_message, h]

theorem convert_single_message_ok {J : Type} (lib : JsonLib J) (m : AMessage J)
    (hne : ¬ (m.content = MContent.str "" ∨ m.content = MContent.blocks [])) :
    ∃ r, convert_single_message lib m = Except.ok r := by
  match hc : m.content with
  | MContent.str s =>
    have hs : (s == "") = false := by
      have h2 : ¬ s = "" := fun h => hne (Or.inl (by rw [hc, h]))
      simpa using h2
    exact ⟨[{ role := m.role, content := some (OContent.str s) }], by
      simp [convert_single_message, hc, hs]⟩
  | MContent.blocks bs =>
    have hb : bs.isEmpty = false := by
      have h2 : ¬ bs = [] := fun h => hne (Or.inr (by rw [hc, h]))
      simpa [List.isEmpty_iff] using h2
    apply Exists.intro
    simp only [convert_single_message, hc]
    rw [if_neg (by simp [hb])]

theorem convert_fold_error_of_mem {J : Type} (lib : JsonLib J) :
    ∀ (msgs : List (AMessage J)) (init : List (OMsg J)),
      (∃ m ∈ msgs, m.content = MContent.str "" ∨ m.content = MContent.blocks []) →
      msgs.foldl (convert_fold lib) (Except.ok init) =
        Except.error "Anthropic消息内容不能为空" := by
  intro msgs
  induction msgs with
  | nil =>
    intro init hex
    rcases hex with ⟨m, hm, _⟩
    exact absurd hm (List.not_mem_nil m)
  | cons m t ih =>
    intro init hex
    by_cases hm : m.content = MContent.str "" ∨ m.content = MContent.blocks []
    · simp only [List.foldl_cons, convert_fold, convert_single_message_empty lib m hm]
      exact convert_fold_keeps_error lib t _
    · rcases convert_single_message_ok lib m hm with ⟨r, hr⟩
      simp only [List.foldl_cons, convert_fold, hr]
      rcases hex with ⟨m2, hm2, he2⟩
      rcases List.mem_cons.mp hm2 with rfl | hm2t
      · exact absurd he2 hm
      · exact ih _ ⟨m2, hm2t, he2⟩

/-- C1: for the upstream chunks with `delta.content` values `"<think>"`,
`"plan"`, `"</think>"`, `"Hello"` and then a finish chunk, the streaming
converter does NOT emit the claimed sequence: the `"</think>"` delta opens
a text block at the same index 0 as the still-open thinking block and
replays the raw tag as a `text_delta`; the `"Hello"` delta is consumed by
the late thinking-close branch (`signature_delta` plus
`content_block_stop(0)`) and its text is lost; finalization then emits an
extra `content_block_stop(1)` for a block that was never started.  This
theorem evaluates the embedded converter at exactly that input. -/
theorem c1_inline_thinking_code_bug (enc : String → Nat) (nowMs : Nat) :
    runStream enc nowMs (some "r1") c1Chunks [] =
      [SEvent.messageStart 0,
       SEvent.contentBlockStart 0 CBlockInfo.thinkingB, SEvent.ping,
       SEvent.contentBlockDelta 0 (EDelta.thinkingDelta "plan"),
       SEvent.contentBlockStart 0 CBlockInfo.textB, SEvent.ping,
       SEvent.contentBlockDelta 0 (EDelta.textDelta "</think>"),
       SEvent.contentBlockDelta 0 EDelta.signatureDelta,
       SEvent.contentBlockStop 0,
       SEvent.contentBlockStop 1,
       SEvent.messageDelta "end_turn" 0 (enc "plan</think>" : Int),
       SEvent.messageStop] := by
  rfl

/-- C2: a stream whose only chunk carries a finish reason and no content
violates block pairing: the converter emits a `signature_delta` and a
`content_block_stop(0)` with no matching `content_block_start`, and never
reaches finalization (no `message_delta`, no `message_stop`). -/
theorem c2_block_pairing_code_bug (enc : String → Nat) (nowMs : Nat) :
    runStream enc nowMs (some "r2") c2Chunks [] =
      [SEvent.messageStart 0,
       SEvent.contentBlockDelta 0 EDelta.signatureDelta,
       SEvent.contentBlockStop 0]
    ∧ countStarts (runStream enc nowMs (some "r2") c2Chunks []) = 0
    ∧ countStops (runStream enc nowMs (some "r2") c2Chunks []) = 1 := by
  exact ⟨rfl, rfl, rfl⟩

/-- C3 counterexample: on a span declaring only `t1` but followed by tool
messages for `t1` and the foreign `t2`, the repair pass keeps the whole
span unchanged, so the output violates the claimed exact-coverage
invariant (the foreign `t2` tool message survives inside the span). -/
theorem c3_tool_repair_counterexample :
    filter_incomplete_tool_calls exC3 = exC3 ∧
    claimedToolIntegrity (filter_incomplete_tool_calls exC3) = false := by
  exact ⟨by decide, by decide⟩

/-- C3 amended, in three parts.  Coverage invariant: for every OpenAI
message list, the repair pass returns a list in which every assistant
message carrying non-empty `tool_calls` is immediately followed by
contiguous tool messages whose `tool_call_id` values cover all of that
assistant's declared (truthy) tool-call ids — tool messages with foreign
ids may remain inside the span.  Span drop: an assistant whose following
contiguous tool messages miss a declared id is dropped together with
those tool messages, the output being that of the pass on what follows
them.  Orphan drop: a tool message at the head of the list, which no
earlier assistant declares, is dropped, the output being that of the
pass on the remaining messages. -/
theorem c3_tool_repair_amended {J : Type} :
    (∀ msgs : List (OMsg J), spansOK (filter_incomplete_tool_calls msgs) = true)
    ∧ (∀ (m : OMsg J) (rest : List (OMsg J)), isAsstTC m = true →
        coversIds (declaredIds m.toolCalls)
          (rest.takeWhile (fun x => x.role == "tool")) = false →
        filter_incomplete_tool_calls (m :: rest) =
          filter_incomplete_tool_calls (rest.dropWhile (fun x => x.role == "tool")))
    ∧ (∀ (t : OMsg J) (rest : List (OMsg J)), (t.role == "tool") = true →
        filter_incomplete_tool_calls (t :: rest) = filter_incomplete_tool_calls rest) := by
  refine ⟨fun msgs => spansOK_filterGo msgs.length [] msgs (Nat.le_refl _), ?_, ?_⟩
  · intro m rest hA hc
    unfold filter_incomplete_tool_calls
    have hstep : filterGo (m :: rest).length [] (m :: rest) =
        filterGo rest.length
          ((rest.takeWhile (fun x => x.role == "tool")).reverse ++ m :: [])
          (rest.dropWhile (fun x => x.role == "tool")) := by
      rw [List.length_cons]
      simp only [filterGo, hA, if_true]
      rw [if_neg (by simp [hc])]
    rw [hstep,
      filterGo_prev_eq rest.length _ []
        (rest.dropWhile (fun x => x.role == "tool"))
        (Or.inr (headNotTool_dropWhile rest)) (Or.inr (headNotTool_dropWhile rest))]
    exact filterGo_fuel_eq rest.length (rest.dropWhile (fun x => x.role == "tool")).length
      [] _ (dropWhile_length_le _ rest) (Nat.le_refl _)
  · intro t rest hT
    unfold filter_incomplete_tool_calls
    have hA : isAsstTC t = false := tool_not_asstTC t hT
    have hstep : filterGo (t :: rest).length [] (t :: rest) =
        filterGo rest.length (t :: []) rest := by
      rw [List.length_cons]
      simp only [filterGo, hA, Bool.false_eq_true, if_false, hT, if_true]
      rw [if_neg (by simp [hasDeclAsst])]
    rw [hstep,
      filterGo_prev_eq rest.length (t :: []) [] rest
        (Or.inl (goodPrev_cons_tool t [] hT goodPrev_nil)) (Or.inl goodPrev_nil)]

/-- Witness for the amended C3 at concrete inputs: the coverage invariant
on the foreign-id example, a span missing its declared id dropped whole,
and a leading orphan tool message dropped. -/
theorem c3_tool_repair_amended_witness :
    spansOK (filter_incomplete_tool_calls exC3) = true
    ∧ filter_incomplete_tool_calls (exC3asst :: exC3rest) =
        filter_incomplete_tool_calls (exC3rest.dropWhile (fun x => x.role == "tool"))
    ∧ filter_incomplete_tool_calls (exC3orphan :: exC3rest) =
        filter_incomplete_tool_calls exC3rest :=
  ⟨(c3_tool_repair_amended (J := String)).1 exC3,
   (c3_tool_repair_amended (J := String)).2.1 exC3asst exC3rest (by decide) (by decide),
   (c3_tool_repair_amended (J := String)).2.2 exC3orphan exC3rest (by decide)⟩

/-- C4: on the boolean form of `thinking` (the request of
`test_convert_with_thinking_model`, which expects the think model
`claude-3-7-sonnet-thinking`), model selection raises the `TypeError` of
the `thinking["type"]` subscript instead of succeeding. -/
theorem c4_boolean_thinking_code_bug (lib : JsonLib String) (enc : String → Nat) :
    get_target_model lib enc cfgC4 reqC4 =
      Except.error "TypeError: argument of type bool is not subscriptable" := by
  rfl

/-- C5 counterexample: the image-only request `reqC5img` passes
validation and converts successfully, yet its estimator count (under a
tokenizer with `enc "" = 0`, as the real BPE encoder has) is zero, so
`cache_tokens`' positivity guard refuses the write: after the
(spec-modelled) rewrite cache write the cache is unchanged and holds no
entry for the request id, refuting the unqualified claim. -/
theorem c5_cache_write_counterexample :
    validate_anthropic_request reqC5img = Except.ok ()
    ∧ convert_messages trivLib reqC5img = Except.ok [{ role := "user" }]
    ∧ count_tokens trivLib (fun s => s.length) reqC5img.messages reqC5img.system
        reqC5img.tools = 0
    ∧ rewrite_token_cache_effect trivLib (fun s => s.length) reqC5img (some "req-5i") [] = []
    ∧ alGet (rewrite_token_cache_effect trivLib (fun s => s.length) reqC5img
        (some "req-5i") []) "req-5i" = none := by
  exact ⟨rfl, rfl, by decide, by decide, by decide⟩

/-- C5 amended: after the rewrite's cache write (spec-modelled, see
`rewrite_token_cache_effect`) with a non-empty request id, the token
cache maps the request id to the estimator's count whenever that count
is positive; a zero count is refused by `cache_tokens`' guard and the
cache is left unchanged, so no entry is created. -/
theorem c5_rewrite_caches_tokens {J : Type} (lib : JsonLib J) (enc : String → Nat)
    (req : AnthropicRequest J) (rid : String) (c : TokenCache)
    (h1 : ¬ rid = "") :
    (0 < count_tokens lib enc req.messages req.system req.tools →
      alGet (rewrite_token_cache_effect lib enc req (some rid) c) rid =
        some (count_tokens lib enc req.messages req.system req.tools : Int))
    ∧ (count_tokens lib enc req.messages req.system req.tools = 0 →
      rewrite_token_cache_effect lib enc req (some rid) c = c) := by
  constructor
  · intro h2
    have hb : (!(rid == "") &&
        decide ((0 : Int) <
          (count_tokens lib enc req.messages req.system req.tools : Int))) = true := by
      simp [h1]
      exact_mod_cast h2
    simp only [rewrite_token_cache_effect, cache_tokens]
    rw [if_pos hb]
    exact alGet_alInsert c rid _
  · intro h0
    simp [rewrite_token_cache_effect, cache_tokens, h0]

/-- Witness for the amended C5 at concrete requests: the text request's
positive count is cached under `req-5`, while the image-only request's
zero count leaves a pre-populated cache untouched. -/
theorem c5_rewrite_caches_tokens_witness :
    alGet (rewrite_token_cache_effect trivLib (fun s => s.length) reqC5 (some "req-5") [])
        "req-5" =
      some (count_tokens trivLib (fun s => s.length) reqC5.messages reqC5.system
        reqC5.tools : Int)
    ∧ rewrite_token_cache_effect trivLib (fun s => s.length) reqC5img (some "req-5i")
        [("a", (1 : Int))] = [("a", (1 : Int))] :=
  ⟨(c5_rewrite_caches_tokens trivLib (fun s => s.length) reqC5 "req-5" []
      (by decide)).1 (by decide),
   (c5_rewrite_caches_tokens trivLib (fun s => s.length) reqC5img "req-5i"
      [("a", (1 : Int))] (by decide)).2 (by decide)⟩

/-- C6: when the upstream usage reports `prompt_tokens` as zero and the
cache holds 7 tokens for the request id, the non-streaming usage
conversion uses the cached 7 as `input_tokens` but does NOT remove the
entry (it reads with `delete=False`), so a second read still returns
7. -/
theorem c6_usage_cache_not_removed (enc : String → Nat) :
    convert_usage trivLib enc
        (some { promptTokens := some 0, completionTokens := some 3 })
        (some "r6") [] [("r6", (7 : Int))] =
      ({ inputTokens := 7, outputTokens := 3 }, [("r6", (7 : Int))])
    ∧ (get_cached_tokens (some "r6") false [("r6", (7 : Int))]).fst = some 7 := by
  exact ⟨rfl, rfl⟩

/-- C7 counterexample: a request whose estimator count exceeds 100,000
(tokenizer reporting 200,001) but whose `thinking` field is the boolean
form makes model selection raise instead of returning
`models.longContext`, refuting the claim's "regardless of the thinking
field". -/
theorem c7_long_context_counterexample :
    get_target_model trivLib (fun _ => 200001) cfgC7 reqC7 =
      Except.error "TypeError: argument of type bool is not subscriptable"
    ∧ 1000 * 100 <
        count_tokens trivLib (fun _ => 200001) reqC7.messages reqC7.system reqC7.tools := by
  exact ⟨rfl, by decide⟩

/-- C7 amended: when the model string contains no comma, `models.default`
is set, the `thinking` field survives its subscript (absent, or an object
carrying a `"type"` key) and the estimator count exceeds 100,000, model
selection returns `models.longContext` regardless of haiku/sonnet hints
and of the thinking value. -/
theorem c7_long_context_amended {J : Type} (lib : JsonLib J) (enc : String → Nat)
    (config : AppConfig) (req : AnthropicRequest J)
    (h1 : containsSub req.model "," = false)
    (h2 : pyTruthyOpt config.models.defaultModel = true)
    (h3 : thinking_subscript_ok req.thinking = true)
    (h4 : 1000 * 100 < count_tokens lib enc req.messages req.system req.tools) :
    get_target_model lib enc config req = Except.ok config.models.longContext := by
  cases ht : req.thinking with
  | none => simp [get_target_model, h1, h2, ht, h4]
  | some tf =>
    cases tf with
    | boolVal b =>
      rw [ht] at h3
      simp [thinking_subscript_ok] at h3
    | objVal kvs =>
      rw [ht] at h3
      simp only [thinking_subscript_ok] at h3
      cases hk : alGet kvs "type" with
      | none =>
        rw [hk] at h3
        simp at h3
      | some v => simp [get_target_model, h1, h2, ht, hk, h4]

/-- Witness for the amended C7 at a concrete input: a comma-free haiku
model, a fully-populated configuration, no `thinking` field and a
tokenizer reporting 200,001 tokens yield `models.longContext`. -/
theorem c7_long_context_amended_witness :
    get_target_model trivLib (fun _ => 200001) cfgC7 reqC7w =
      Except.ok cfgC7.models.longContext :=
  c7_long_context_amended trivLib (fun _ => 200001) cfgC7 reqC7w
    (by decide) (by decide) (by decide) (by decide)

/-- C8: a response whose `choices` is missing/null or the empty list makes
the non-streaming assembler fail with the invalid-upstream error and
produce no Anthropic response, while a non-empty `choices` list is
assembled from its first choice. -/
theorem c8_choices_check {J : Type} (lib : JsonLib J) (enc : String → Nat) (nowMs : Nat)
    (resp : RResponseData) (om rid : Option String) (c : TokenCache) :
    ((resp.choices = none ∨ resp.choices = some []) →
      convert_response lib enc nowMs resp om rid c =
        Except.error "OpenAI响应没有有效的choices")
    ∧ (∀ fc rest, resp.choices = some (fc :: rest) →
      convert_response lib enc nowMs resp om rid c =
        assemble_first_choice lib enc nowMs resp fc om rid c) := by
  constructor
  · intro h
    rcases h with h | h <;> simp [convert_response, h]
  · intro fc rest h
    simp [convert_response, h]

/-- Witness for C8: the empty-choices response errors, and the one-choice
response is assembled from its first choice, concretely a single text
block with the upstream usage. -/
theorem c8_choices_check_witness :
    convert_response trivLib (fun s => s.length) 0
        ({ choices := some [] } : RResponseData) none none [] =
      Except.error "OpenAI响应没有有效的choices"
    ∧ convert_response trivLib (fun s => s.length) 0 respC8 none (some "r8") [] =
        assemble_first_choice trivLib (fun s => s.length) 0 respC8 choiceC8 none (some "r8") []
    ∧ assemble_first_choice trivLib (fun s => s.length) 0 respC8 choiceC8 none (some "r8") [] =
        Except.ok
          ({ id := "resp-1",
             content := [{ btype := "text", text := some "hello" }],
             model := some "gpt-test",
             stopReason := "end_turn",
             usage := { inputTokens := 3, outputTokens := 2 } }, []) := by
  refine ⟨(c8_choices_check trivLib (fun s => s.length) 0 _ none none []).1 (Or.inr rfl),
    (c8_choices_check trivLib (fun s => s.length) 0 respC8 none (some "r8") []).2
      choiceC8 [] rfl, ?_⟩
  rfl

/-- C9: a request whose other fields satisfy every check of
`validate_anthropic_request` passes validation even when one of its
messages has empty string or empty list content, and the message
conversion then fails with the empty-content `ValueError`, producing no
OpenAI request. -/
theorem c9_validation_vs_conversion {J : Type} (lib : JsonLib J) (req : AnthropicRequest J)
    (h1 : ¬ req.model = "")
    (h2 : ¬ req.messages = [])
    (h3 : 0 < req.maxTokens)
    (h4 : ∀ t, req.temperature = some t → (0 : ℚ) ≤ t ∧ t ≤ 1)
    (h5 : ∀ t, req.topP = some t → (0 : ℚ) ≤ t ∧ t ≤ 1)
    (h6 : ∀ m ∈ req.messages, m.role = "user" ∨ m.role = "assistant")
    (m : AMessage J) (hm : m ∈ req.messages)
    (he : m.content = MContent.str "" ∨ m.content = MContent.blocks []) :
    validate_anthropic_request req = Except.ok () ∧
    convert_messages lib req = Except.error "Anthropic消息内容不能为空" := by
  constructor
  · have hfind : req.messages.find? (fun m =>
        m.role == "" || (!(m.role == "user") && !(m.role == "assistant"))) = none := by
      rw [List.find?_eq_none]
      intro x hx
      rcases h6 x hx with h | h <;> simp [h]
    have htempn : ¬ ((match req.temperature with
        | some t => !(decide ((0 : ℚ) ≤ t) && decide (t ≤ 1))
        | none => false) = true) := by
      cases hq : req.temperature with
      | none => simp
      | some t =>
        rcases h4 t hq with ⟨ha, hb⟩
        simp [ha, hb]
    have htopn : ¬ ((match req.topP with
        | some t => !(decide ((0 : ℚ) ≤ t) && decide (t ≤ 1))
        | none => false) = true) := by
      cases hq : req.topP with
      | none => simp
      | some t =>
        rcases h5 t hq with ⟨ha, hb⟩
        simp [ha, hb]
    unfold validate_anthropic_request
    rw [if_neg (by simpa using h1),
        if_neg (by simpa [List.isEmpty_iff] using h2),
        if_neg (not_le.mpr h3),
        if_neg htempn, if_neg htopn, hfind]
  · have hfold := convert_fold_error_of_mem lib req.messages
      (match req.system with
       | none => []
       | some (SystemField.str s) =>
         if s == "" then [] else convert_system_message (SystemField.str s)
       | some (SystemField.list items) =>
         if items.isEmpty then [] else convert_system_message (SystemField.list items))
      ⟨m, hm, he⟩
    simp only [convert_messages]
    rw [hfold]

/-- Witness for C9: the concrete request with model `claude-3`, a single
user message with empty string content and `max_tokens = 10` passes
validation yet fails conversion. -/
theorem c9_validation_vs_conversion_witness :
    validate_anthropic_request reqC9 = Except.ok () ∧
    convert_messages trivLib reqC9 = Except.error "Anthropic消息内容不能为空" :=
  c9_validation_vs_conversion trivLib reqC9 (by decide) (by decide) (by decide)
    (fun t ht => nomatch ht) (fun t ht => nomatch ht) (by decide)
    { role := "user", content := MContent.str "" } (by decide) (Or.inl rfl)

/-- C10 counterexample: a put of zero tokens for a key the cache already
holds is a no-op, so the subsequent get returns the previously cached 5,
not none as claimed. -/
theorem c10_cache_guard_counterexample :
    cache_tokens (some "r") 0 [("r", (5 : Int))] = [("r", (5 : Int))]
    ∧ (get_cached_tokens (some "r") false
        (cache_tokens (some "r") 0 [("r", (5 : Int))])).fst = some 5 := by
  exact ⟨rfl, rfl⟩

/-- C10 amended: a put with a non-positive count or an empty/None request
id leaves the cache completely unchanged; a subsequent get for that id
returns whatever was cached before (none when the id is empty/None or has
no entry), and a get with an empty/None id returns none without modifying
the cache. -/
theorem c10_cache_guard_amended (rid : Option String) (n : Int) (c : TokenCache)
    (h : n ≤ 0 ∨ pyTruthyOpt rid = false) :
    cache_tokens rid n c = c
    ∧ (get_cached_tokens rid false (cache_tokens rid n c)).fst =
        (if pyTruthyOpt rid then alGet c (rid.getD "") else none)
    ∧ (get_cached_tokens rid false (cache_tokens rid n c)).snd = c
    ∧ get_cached_tokens none false c = (none, c)
    ∧ get_cached_tokens (some "") false c = (none, c) := by
  have hput : cache_tokens rid n c = c := by
    cases rid with
    | none => rfl
    | some r =>
      rcases h with h | h
      · have : decide ((0 : Int) < n) = false := by
          simp [Int.not_lt.mpr h]
        simp [cache_tokens, this]
      · have hr : (r == "") = true := by
          simpa [pyTruthyOpt] using h
        simp [cache_tokens, hr]
  refine ⟨hput, ?_, ?_, rfl, rfl⟩
  · rw [hput]
    cases rid with
    | none => simp [get_cached_tokens, pyTruthyOpt]
    | some r =>
      by_cases hr : (r == "") = true
      · simp [get_cached_tokens, pyTruthyOpt, hr]
      · have hrf : (r == "") = false := by simpa using hr
        simp [get_cached_tokens, pyTruthyOpt, hrf]
  · rw [hput]
    cases rid with
    | none => rfl
    | some r =>
      by_cases hr : (r == "") = true
      · simp [get_cached_tokens, pyTruthyOpt, hr]
      · have hrf : (r == "") = false := by simpa using hr
        simp [get_cached_tokens, pyTruthyOpt, hrf]

/-- Witness for the amended C10: an empty request id with a positive count
is a no-op on a one-entry cache and every get clause evaluates as
stated. -/
theorem c10_cache_guard_amended_witness :
    cache_tokens (some "") 3 [("a", (2 : Int))] = [("a", (2 : Int))]
    ∧ (get_cached_tokens (some "") false
        (cache_tokens (some "") 3 [("a", (2 : Int))])).fst =
        (if pyTruthyOpt (some "") then alGet [("a", (2 : Int))] ((some "").getD "") else none)
    ∧ (get_cached_tokens (some "") false
        (cache_tokens (some "") 3 [("a", (2 : Int))])).snd = [("a", (2 : Int))]
    ∧ get_cached_tokens none false [("a", (2 : Int))] = (none, [("a", (2 : Int))])
    ∧ get_cached_tokens (some "") false [("a", (2 : Int))] = (none, [("a", (2 : Int))]) :=
  c10_cache_guard_amended (some "") 3 [("a", (2 : Int))] (Or.inr (by decide))
